import Mathlib

/-!
Verification of the retireplan engine: a shallow embedding of the
year-by-year retirement planning simulation (timeline construction,
spending targets, Social Security scheduling, RMD table lookup, ordered
multi-account withdrawal, tax/MAGI evaluation, Roth conversion search and
the per-year ledger loop), with theorems checking the specified
properties. Python floats and Decimals are idealised as exact rationals;
machine rounding at output boundaries is modelled by half-up rounding to
whole currency units, exactly as the source's ROUND_HALF_UP discipline.
-/

namespace RetirePlan

/-! ## Rounding layer (precision.py)

`round_dollar` quantises a Decimal to a whole number of dollars with
ROUND_HALF_UP (ties away from zero). -/

/-- Half-up (ties away from zero) rounding of a rational to an integer,
the model of `round_dollar` in precision.py. -/
def roundHalfUp (x : ℚ) : ℤ :=
  if 0 ≤ x then ⌊x + 1/2⌋ else -⌊-x + 1/2⌋

/-! ## Bucket names and filing status

The engine dispatches on the three bucket names and constructs the filing
status string as "MFJ" when both persons are alive, "Single" otherwise
(engine.py line 188); no other filing value is ever produced. -/

/-- One of the three account buckets (accounts.py uses the strings
"Brokerage", "Roth", "IRA"). -/
inductive Leg where
  | Brokerage
  | Roth
  | IRA
deriving DecidableEq, Repr

/-- Filing status values reaching the tax tables ("MFJ" / "Single"). -/
inductive Filing where
  | MFJ
  | Single
deriving DecidableEq, Repr

/-- The string stored in a row's Filing column. -/
def Filing.toString : Filing → String
  | .MFJ => "MFJ"
  | .Single => "Single"

/-! ## Tax policy data (policy.py) -/

/-- Federal tax brackets (policy.py FED_BRACKETS): ordered
(upper bound, marginal rate) pairs; `none` stands for the unbounded top
bracket (`float("inf")` in the source). -/
def fed_brackets : Filing → List (Option ℚ × ℚ)
  | .Single =>
      [(some 11600, 10/100), (some 47150, 12/100), (some 100525, 22/100),
       (some 191950, 24/100), (some 243725, 32/100), (some 609350, 35/100),
       (none, 37/100)]
  | .MFJ =>
      [(some 23200, 10/100), (some 94300, 12/100), (some 201050, 22/100),
       (some 383900, 24/100), (some 487450, 32/100), (some 731200, 35/100),
       (none, 37/100)]

/-- Social Security provisional-income thresholds (policy.py
SS_THRESHOLDS): (first threshold, second threshold). -/
def ss_thresholds : Filing → ℚ × ℚ
  | .Single => (25000, 34000)
  | .MFJ => (32000, 44000)

/-- IRS Uniform Lifetime Table (policy.py _UNIFORM_LIFETIME), listed in
descending age order exactly as `sorted(keys, reverse=True)` visits it. -/
def uniformLifetime : List (ℤ × ℚ) :=
  [(115, 29/10), (114, 30/10), (113, 31/10), (112, 33/10), (111, 34/10),
   (110, 35/10), (109, 37/10), (108, 39/10), (107, 41/10), (106, 43/10),
   (105, 46/10), (104, 49/10), (103, 52/10), (102, 56/10), (101, 60/10),
   (100, 64/10), (99, 68/10), (98, 73/10), (97, 78/10), (96, 84/10),
   (95, 89/10), (94, 95/10), (93, 101/10), (92, 108/10), (91, 115/10),
   (90, 122/10), (89, 129/10), (88, 137/10), (87, 144/10), (86, 152/10),
   (85, 160/10), (84, 168/10), (83, 177/10), (82, 185/10), (81, 194/10),
   (80, 202/10), (79, 211/10), (78, 220/10), (77, 229/10), (76, 237/10),
   (75, 246/10), (74, 255/10), (73, 265/10)]

/-- First entry of a descending (age, factor) list whose age is at most
`age` — the loop body of `rmd_factor` in policy.py. -/
def lookupFactor : List (ℤ × ℚ) → ℤ → Option (ℤ × ℚ)
  | [], _ => none
  | p :: rest, age => if p.1 ≤ age then some p else lookupFactor rest age

/-- RMD distribution factor (policy.py `rmd_factor`): `none` models the
infinite factor returned below age 73; otherwise the factor of the
greatest tabulated age at or below the input, with the source's
(unreachable) fallback to the age-73 factor. -/
def rmd_factor (age : ℤ) : Option ℚ :=
  if age < 73 then none
  else
    match lookupFactor uniformLifetime age with
    | some p => some p.2
    | none => some (265/10)

/-! ## Tax/MAGI evaluator (taxes.py) -/

/-- Bracket walk of `progressive_tax` (taxes.py): taxes the span of
income inside each bracket and stops at the bracket containing the
taxable income. `prev` is the lower edge of the current bracket and `acc`
the tax accumulated so far. -/
def progressiveTaxGo (ti : ℚ) : List (Option ℚ × ℚ) → ℚ → ℚ → ℚ
  | [], _, acc => acc
  | (upper, rate) :: rest, prev, acc =>
    match upper with
    | none =>
      let span := ti - prev
      if 0 < span then acc + span * rate else acc
    | some u =>
      let span := min ti u - prev
      let acc2 := if 0 < span then acc + span * rate else acc
      let prev2 := if 0 < span then u else prev
      if ti ≤ u then acc2 else progressiveTaxGo ti rest prev2 acc2

/-- Progressive federal income tax (taxes.py `progressive_tax`). -/
def progressive_tax (taxable_income : ℚ) (filing : Filing) : ℚ :=
  if taxable_income ≤ 0 then 0
  else max 0 (progressiveTaxGo taxable_income (fed_brackets filing) 0 0)

/-- Taxable portion of Social Security benefits by the provisional-income
rule (taxes.py `ss_taxable_amount`). -/
def ss_taxable_amount (ss_total other_ordinary : ℚ) (filing : Filing) : ℚ :=
  if ss_total ≤ 0 then 0
  else
    let base := (ss_thresholds filing).1
    let addl := (ss_thresholds filing).2
    let provisional := other_ordinary + ss_total / 2
    if provisional ≤ base then 0
    else
      let part1 := min (provisional - base) (addl - base)
      let taxable1 := if 0 < part1 then min ss_total (part1 * 2) / 2 else 0
      let excess := max 0 (provisional - addl)
      let taxable2 := 17/20 * excess
      min (17/20 * ss_total) (max 0 (taxable1 + taxable2))

/-- Result quadruple of `compute_tax_magi` (taxes.py). -/
structure TaxResult where
  tax : ℚ
  ss_taxable : ℚ
  taxable_income : ℚ
  magi : ℚ
deriving DecidableEq, Repr

/-- Comprehensive tax and MAGI computation (taxes.py `compute_tax_magi`). -/
def compute_tax_magi (ira_ordinary roth_conversion ss_total std_deduction : ℚ)
    (filing : Filing) : TaxResult :=
  let ordinary := max 0 (ira_ordinary + roth_conversion)
  let ss_tax := ss_taxable_amount ss_total ordinary filing
  let taxable_income := max 0 (ordinary + ss_tax - max 0 std_deduction)
  let tax := progressive_tax taxable_income filing
  let magi := ordinary + ss_tax
  ⟨tax, ss_tax, taxable_income, magi⟩

/-! ## Social Security estimator (social_security.py) -/

/-- Scheduled annual benefit (social_security.py `ss_for_year`): zero when
the start age or amount is unset or the person is below the start age;
otherwise the start amount compounded by the COLA for each year since the
first payable year. `year_index` is accepted but unused, as in the source. -/
def ss_for_year (age_now : ℤ) (start_age : Option ℤ) (annual_at_start : Option ℚ)
    (_year_index : ℕ) (cola : ℚ) : ℚ :=
  match start_age, annual_at_start with
  | some sa, some amt =>
      if age_now < sa then 0 else amt * (1 + cola) ^ (age_now - sa).toNat
  | _, _ => 0

/-- Combination of the two persons' benefits (engine.py lines 244-251):
sum when both alive, the larger schedule when exactly one is alive, zero
when neither is. -/
def ssCombined (alive1 alive2 : Bool) (ss1 ss2 : ℚ) : ℚ :=
  if alive1 && alive2 then ss1 + ss2
  else if alive1 && !alive2 then max ss1 ss2
  else if !alive1 && alive2 then max ss1 ss2
  else 0

/-! ## Spending target calculator (spending.py) -/

/-- Compound inflation factor (spending.py `infl_factor` /
`infl_factor_decimal`). -/
def infl_factor (infl : ℚ) (years_since_start : ℕ) : ℚ :=
  (1 + infl) ^ years_since_start

/-- Inflation- and phase-adjusted spending target (spending.py
`spend_target`). -/
def spend_target (phase : String) (year_index : ℕ) (infl target_spend
    gogo_percent slow_percent nogo_percent survivor_pct : ℚ)
    (person1_alive person2_alive : Bool) : ℚ :=
  let base :=
    if phase = "GoGo" then target_spend * (gogo_percent / 100)
    else if phase = "Slow" then target_spend * (slow_percent / 100)
    else target_spend * (nogo_percent / 100)
  let amt := base * infl_factor infl year_index
  if person1_alive && person2_alive then amt
  else if person1_alive || person2_alive then amt * (survivor_pct / 100)
  else 0

/-! ## Timeline builder (timeline.py) -/

/-- Context for one simulated year (timeline.py `YearCtx`). -/
structure YearCtx where
  year : ℤ
  age_person1 : ℤ
  age_person2 : ℤ
  phase : String
  person1_alive : Bool
  person2_alive : Bool
deriving DecidableEq, Repr

/-- Python truthiness of an optional integer: `None` and `0` are falsy.
The source guards person-2 fields with `if (birth_person2 and
final_age_person2)`. -/
def pyTruthy : Option ℤ → Bool
  | none => false
  | some v => decide (v ≠ 0)

/-- Timeline construction (timeline.py `make_years`): one context per
calendar year from the start year through the later of the two persons'
last living years, with the single-person default of the start year for
the absent person's last year. -/
def make_years (start_year birth_person1 : ℤ) (birth_person2 : Option ℤ)
    (final_age_person1 : ℤ) (final_age_person2 : Option ℤ)
    (gogo_years slow_years : ℤ) : List YearCtx :=
  let last_p1 := birth_person1 + final_age_person1
  let has2 := pyTruthy birth_person2 && pyTruthy final_age_person2
  let last_p2 :=
    if has2 then birth_person2.getD 0 + final_age_person2.getD 0 else start_year
  let last_year := max last_p1 last_p2
  (List.range (last_year + 1 - start_year).toNat).map (fun k : ℕ =>
    let y := start_year + (k : ℤ)
    let ap1 := y - birth_person1
    let ap2 := if pyTruthy birth_person2 then y - birth_person2.getD 0 else 0
    let idx := y - start_year
    let phase :=
      if idx < gogo_years then "GoGo"
      else if idx < gogo_years + slow_years then "Slow"
      else "NoGo"
    let alive1 := decide (ap1 ≤ final_age_person1)
    let alive2 :=
      if has2 then decide (ap2 ≤ final_age_person2.getD 0) else false
    ⟨y, ap1, ap2, phase, alive1, alive2⟩)

/-! ## Account withdrawal sequencer (accounts.py) -/

/-- Result septuple of `withdraw_with_order` (accounts.py): per-bucket
draws, remaining balances, and the unmet remainder. -/
structure WithdrawResult where
  draw_b : ℚ
  draw_r : ℚ
  draw_i : ℚ
  bal_b : ℚ
  bal_r : ℚ
  bal_i : ℚ
  remaining : ℚ
deriving DecidableEq, Repr

/-- The loop of `withdraw_with_order`: for each bucket in order take
`min(balance, remaining)`, debit the bucket and accumulate the draw,
stopping once the remainder is at most the `1e-9` epsilon. -/
def withdrawGo : List Leg → ℚ → ℚ → ℚ → ℚ → ℚ → ℚ → ℚ → WithdrawResult
  | [], db, dr, di, b, r, i, rem => ⟨db, dr, di, b, r, i, rem⟩
  | leg :: rest, db, dr, di, b, r, i, rem =>
    let cap := match leg with | .Brokerage => b | .Roth => r | .IRA => i
    let take := min cap rem
    let b2 := match leg with | .Brokerage => b - take | _ => b
    let r2 := match leg with | .Roth => r - take | _ => r
    let i2 := match leg with | .IRA => i - take | _ => i
    let db2 := match leg with | .Brokerage => db + take | _ => db
    let dr2 := match leg with | .Roth => dr + take | _ => dr
    let di2 := match leg with | .IRA => di + take | _ => di
    let rem2 := rem - take
    if rem2 ≤ 1 / 10 ^ 9 then ⟨db2, dr2, di2, b2, r2, i2, rem2⟩
    else withdrawGo rest db2 dr2 di2 b2 r2 i2 rem2

/-- Ordered multi-bucket withdrawal (accounts.py `withdraw_with_order`). -/
def withdraw_with_order (brokerage_balance roth_balance ira_balance need : ℚ)
    (order : List Leg) : WithdrawResult :=
  withdrawGo order 0 0 0 brokerage_balance roth_balance ira_balance (max 0 need)

/-! ## RMD amount in the engine (engine.py lines 261-267) -/

/-- The engine's RMD: due only while person 1 is alive, at or above the
configured start age, with a positive pre-tax balance; the balance is
divided by the table factor, and the infinite factor below age 73 yields
zero exactly as `Decimal / Infinity` does. -/
def rmdAmount (alive : Bool) (age rmd_start_age : ℤ) (ira_end : ℚ) : ℚ :=
  if alive = true ∧ rmd_start_age ≤ age ∧ 0 < ira_end then
    match rmd_factor age with
    | none => 0
    | some f => ira_end / f
  else 0

/-! ## Roth conversion equilibrium search (engine.py lines 296-313)

The loop `for _ in range(8)` evaluates `tax_and_magi` once per round and
stops when the target is inapplicable, the gap to the target MAGI is at
most one dollar, or the remaining IRA headroom step is at most one
dollar; otherwise it raises the conversion by `min(gap, cap - conv)`.
The second component counts the rounds executed, i.e. the number of
`compute_tax_magi` evaluations performed by the search. -/
def convSearch (rmd draw_ira ss_income std_ded : ℚ) (filing : Filing)
    (target_magi : ℚ) (alive : Bool) (age aca_end_age : ℤ) (i1 : ℚ) :
    ℕ → ℚ → ℚ × ℕ
  | 0, conv => (conv, 0)
  | fuel + 1, conv =>
    let magi0 := (compute_tax_magi (rmd + draw_ira + conv) conv ss_income
      std_ded filing).magi
    if target_magi ≤ 0 ∨ alive = false ∨ aca_end_age ≤ age then (conv, 1)
    else
      let gap := target_magi - magi0
      if gap ≤ 1 then (conv, 1)
      else
        let cap := max 0 i1
        let step := min gap (cap - conv)
        if step ≤ 1 then (conv, 1)
        else
          let res := convSearch rmd draw_ira ss_income std_ded filing
            target_magi alive age aca_end_age i1 fuel (conv + step)
          (res.1, res.2 + 1)

/-! ## Year ledger / simulation loop (engine.py `run_plan`) -/

/-- Validated configuration object, with exactly the attributes
`run_plan` reads (plus the `filing_status` field that inputs.py carries
but the engine never consults). Person-2 data is optional as in
inputs.py. -/
structure Config where
  start_year : ℤ
  birth_year_person1 : ℤ
  birth_year_person2 : Option ℤ
  final_age_person1 : ℤ
  final_age_person2 : Option ℤ
  filing_status : Filing
  balances_brokerage : ℚ
  balances_roth : ℚ
  balances_ira : ℚ
  target_spend : ℚ
  gogo_percent : ℚ
  slow_percent : ℚ
  nogo_percent : ℚ
  gogo_years : ℤ
  slow_years : ℤ
  survivor_percent : ℚ
  ss_person1_start_age : ℤ
  ss_person1_annual_at_start : ℚ
  ss_person2_start_age : Option ℤ
  ss_person2_annual_at_start : Option ℚ
  inflation : ℚ
  brokerage_growth : ℚ
  roth_growth : ℚ
  ira_growth : ℚ
  magi_target_base : ℚ
  standard_deduction_base : ℚ
  rmd_start_age : ℤ
  aca_end_age : ℤ
  draw_order : List Leg
  year1_spend : ℚ
  year1_ira_draw : ℚ
  year1_brokerage_draw : ℚ
  year1_roth_draw : ℚ
  year1_cash_events : ℚ

/-- A one-off cash event: positive amounts are extra spending, negative
amounts are inflows. -/
structure Event where
  year : ℤ
  amount : ℚ

/-- The running end balances threaded between simulated years. -/
structure St where
  b : ℚ
  r : ℚ
  i : ℚ

/-- One output row of `run_plan`, with every currency field rounded to
whole dollars and year/age fields whole, as in engine.py. -/
structure Row where
  Year : ℤ
  Person1_Age : ℤ
  Person2_Age : ℤ
  Lifestyle : String
  Filing : String
  Total_Spend : ℤ
  Taxes_Due : ℤ
  Cash_Events : ℤ
  Target_Spend : ℤ
  Social_Security : ℤ
  IRA_Draw : ℤ
  Brokerage_Draw : ℤ
  Roth_Draw : ℤ
  Roth_Conversion : ℤ
  RMD : ℤ
  MAGI : ℤ
  Std_Deduction : ℤ
  IRA_Balance : ℤ
  Brokerage_Balance : ℤ
  Roth_Balance : ℤ
  Total_Assets : ℤ
  Shortfall : ℤ

/-- The full-precision intermediate values of one simulated year, before
output rounding: the local variables of the loop body of `run_plan`. -/
structure Aux where
  std_ded : ℚ
  target_magi : ℚ
  total_spend : ℚ
  ss1 : ℚ
  ss2 : ℚ
  ss_income : ℚ
  events_cash : ℚ
  rmd : ℚ
  need : ℚ
  draw_b : ℚ
  draw_r : ℚ
  draw_i : ℚ
  b1 : ℚ
  r1 : ℚ
  i1 : ℚ
  unmet : ℚ
  provided : ℚ
  shortfall : ℚ
  conv_raw : ℚ
  rounds : ℕ
  roth_conv : ℚ
  i1_after : ℚ
  r1_after : ℚ
  tax : ℚ
  magi : ℚ
  rmd_surplus : ℚ
  b1_after : ℚ
  end_b : ℚ
  end_r : ℚ
  end_i : ℚ
  target_spend : ℚ

/-- Builds the output row from a year context and the year's computed
values; every column is rounded exactly as in engine.py. -/
def rowOf (yc : YearCtx) (a : Aux) : Row :=
  { Year := yc.year
    Person1_Age := yc.age_person1
    Person2_Age := yc.age_person2
    Lifestyle := yc.phase
    Filing := if yc.person1_alive && yc.person2_alive then "MFJ" else "Single"
    Total_Spend := roundHalfUp a.total_spend
    Taxes_Due := roundHalfUp a.tax
    Cash_Events := roundHalfUp a.events_cash
    Target_Spend := roundHalfUp a.target_spend
    Social_Security := roundHalfUp a.ss_income
    IRA_Draw := roundHalfUp a.draw_i
    Brokerage_Draw := roundHalfUp a.draw_b
    Roth_Draw := roundHalfUp a.draw_r
    Roth_Conversion := roundHalfUp a.roth_conv
    RMD := roundHalfUp a.rmd
    MAGI := roundHalfUp a.magi
    Std_Deduction := roundHalfUp a.std_ded
    IRA_Balance := roundHalfUp a.end_i
    Brokerage_Balance := roundHalfUp a.end_b
    Roth_Balance := roundHalfUp a.end_r
    Total_Assets := roundHalfUp (a.end_b + a.end_r + a.end_i)
    Shortfall := roundHalfUp a.shortfall }

/-- Year-1 branch of the loop (engine.py lines 119-180): user-provided
spend, draws and cash events replace the computed values; Social
Security, tax, conversion, RMD, MAGI and shortfall are all fixed at
zero; growth still applies at the end of the year. -/
def mkAux1 (cfg : Config) : Aux :=
  let total_spend := cfg.year1_spend
  let draw_ira := cfg.year1_ira_draw
  let draw_broke := cfg.year1_brokerage_draw
  let draw_roth := cfg.year1_roth_draw
  let events_cash := cfg.year1_cash_events
  let i1 := cfg.balances_ira - draw_ira
  let b1 := cfg.balances_brokerage - draw_broke
  let r1 := cfg.balances_roth - draw_roth
  let end_b := b1 * (1 + cfg.brokerage_growth)
  let end_r := r1 * (1 + cfg.roth_growth)
  let end_i := i1 * (1 + cfg.ira_growth)
  { std_ded := 0
    target_magi := 0
    total_spend := total_spend
    ss1 := 0
    ss2 := 0
    ss_income := 0
    events_cash := events_cash
    rmd := 0
    need := 0
    draw_b := draw_broke
    draw_r := draw_roth
    draw_i := draw_ira
    b1 := b1
    r1 := r1
    i1 := i1
    unmet := 0
    provided := 0 + 0 + draw_broke + draw_roth + draw_ira
    shortfall := 0
    conv_raw := 0
    rounds := 0
    roth_conv := 0
    i1_after := i1 - 0
    r1_after := r1 + 0
    tax := 0
    magi := 0
    rmd_surplus := 0
    b1_after := b1
    end_b := end_b
    end_r := end_r
    end_i := end_i
    target_spend := max 0 (total_spend - 0 - events_cash) }

/-! The local variables of the loop body of `run_plan` for a normal
(non-first) year, as named functions of the configuration, event list,
year index, year context and opening balances (engine.py lines 182-339). -/

/-- The year's compound inflation factor. -/
def yearInfl (cfg : Config) (idx : ℕ) : ℚ := infl_factor cfg.inflation idx

/-- The year's inflated standard deduction. -/
def yearStdDed (cfg : Config) (idx : ℕ) : ℚ :=
  cfg.standard_deduction_base * yearInfl cfg idx

/-- The year's filing status, derived from the alive flags alone. -/
def yearFiling (yc : YearCtx) : Filing :=
  if yc.person1_alive && yc.person2_alive then .MFJ else .Single

/-- The year's MAGI target, active only while person 1 is alive and under
the ACA end age. -/
def yearTargetMagi (cfg : Config) (idx : ℕ) (yc : YearCtx) : ℚ :=
  if yc.person1_alive = true ∧ yc.age_person1 < cfg.aca_end_age then
    cfg.magi_target_base * yearInfl cfg idx
  else 0

/-- The year's gross spending need. -/
def yearSpendTarget (cfg : Config) (idx : ℕ) (yc : YearCtx) : ℚ :=
  spend_target yc.phase idx cfg.inflation cfg.target_spend
    cfg.gogo_percent cfg.slow_percent cfg.nogo_percent cfg.survivor_percent
    yc.person1_alive yc.person2_alive

/-- Person 1's scheduled benefit for the year. -/
def yearSS1 (cfg : Config) (idx : ℕ) (yc : YearCtx) : ℚ :=
  ss_for_year yc.age_person1 (some cfg.ss_person1_start_age)
    (some cfg.ss_person1_annual_at_start) idx cfg.inflation

/-- Person 2's scheduled benefit for the year. -/
def yearSS2 (cfg : Config) (idx : ℕ) (yc : YearCtx) : ℚ :=
  ss_for_year yc.age_person2 cfg.ss_person2_start_age
    cfg.ss_person2_annual_at_start idx cfg.inflation

/-- The year's combined Social Security income. -/
def yearSSIncome (cfg : Config) (idx : ℕ) (yc : YearCtx) : ℚ :=
  ssCombined yc.person1_alive yc.person2_alive (yearSS1 cfg idx yc)
    (yearSS2 cfg idx yc)

/-- The sum of the year's cash events. -/
def yearEventsCash (events : List Event) (yc : YearCtx) : ℚ :=
  (events.filter (fun e => e.year = yc.year)).foldl
    (fun acc e => acc + e.amount) 0

/-- The year's RMD, from the opening pre-tax balance. -/
def yearRmd (cfg : Config) (yc : YearCtx) (s : St) : ℚ :=
  rmdAmount yc.person1_alive yc.age_person1 cfg.rmd_start_age s.i

/-- The cash needed from accounts after Social Security and the RMD. -/
def yearNeed (cfg : Config) (idx : ℕ) (yc : YearCtx) (s : St) : ℚ :=
  max 0 (yearSpendTarget cfg idx yc - yearSSIncome cfg idx yc
    - yearRmd cfg yc s)

/-- The year's ordered withdrawal, run against the RMD-debited pre-tax
balance. -/
def yearW (cfg : Config) (idx : ℕ) (yc : YearCtx) (s : St) : WithdrawResult :=
  withdraw_with_order s.b s.r (s.i - yearRmd cfg yc s)
    (yearNeed cfg idx yc s) cfg.draw_order

/-- The total cash provided: benefits, RMD and the three draws. -/
def yearProvided (cfg : Config) (idx : ℕ) (yc : YearCtx) (s : St) : ℚ :=
  yearSSIncome cfg idx yc + yearRmd cfg yc s + (yearW cfg idx yc s).draw_b
    + (yearW cfg idx yc s).draw_r + (yearW cfg idx yc s).draw_i

/-- The year's shortfall before rounding. -/
def yearShortfall (cfg : Config) (idx : ℕ) (yc : YearCtx) (s : St) : ℚ :=
  max 0 (yearSpendTarget cfg idx yc - yearProvided cfg idx yc s)

/-- The Roth conversion search for the year (conversion, rounds). -/
def yearConvRes (cfg : Config) (idx : ℕ) (yc : YearCtx) (s : St) : ℚ × ℕ :=
  convSearch (yearRmd cfg yc s) (yearW cfg idx yc s).draw_i
    (yearSSIncome cfg idx yc) (yearStdDed cfg idx) (yearFiling yc)
    (yearTargetMagi cfg idx yc) yc.person1_alive yc.age_person1
    cfg.aca_end_age (yearW cfg idx yc s).bal_i 8 0

/-- The applied Roth conversion, clamped to the post-draw IRA balance. -/
def yearRothConv (cfg : Config) (idx : ℕ) (yc : YearCtx) (s : St) : ℚ :=
  min (yearConvRes cfg idx yc s).1 (max 0 (yearW cfg idx yc s).bal_i)

/-- The year's final tax/MAGI evaluation at the chosen conversion. -/
def yearTaxRes (cfg : Config) (idx : ℕ) (yc : YearCtx) (s : St) : TaxResult :=
  compute_tax_magi
    (yearRmd cfg yc s + (yearW cfg idx yc s).draw_i + yearRothConv cfg idx yc s)
    (yearRothConv cfg idx yc s) (yearSSIncome cfg idx yc)
    (yearStdDed cfg idx) (yearFiling yc)

/-- Surplus RMD beyond the post-benefit spending need, swept into the
brokerage bucket. -/
def yearRmdSurplus (cfg : Config) (idx : ℕ) (yc : YearCtx) (s : St) : ℚ :=
  max 0 (yearRmd cfg yc s - max 0 (yearSpendTarget cfg idx yc
    - yearSSIncome cfg idx yc))

/-- Normal-year branch of the loop (engine.py lines 182-339): spending
need, Social Security, cash events and RMD from the opening balances,
then the ordered withdrawal, the Roth conversion search, the final
tax/MAGI evaluation, the surplus-RMD sweep into brokerage and the
end-of-year growth. -/
def mkAuxN (cfg : Config) (events : List Event) (idx : ℕ) (yc : YearCtx)
    (s : St) : Aux :=
  { std_ded := yearStdDed cfg idx
    target_magi := yearTargetMagi cfg idx yc
    total_spend := yearSpendTarget cfg idx yc
    ss1 := yearSS1 cfg idx yc
    ss2 := yearSS2 cfg idx yc
    ss_income := yearSSIncome cfg idx yc
    events_cash := yearEventsCash events yc
    rmd := yearRmd cfg yc s
    need := yearNeed cfg idx yc s
    draw_b := (yearW cfg idx yc s).draw_b
    draw_r := (yearW cfg idx yc s).draw_r
    draw_i := (yearW cfg idx yc s).draw_i
    b1 := (yearW cfg idx yc s).bal_b
    r1 := (yearW cfg idx yc s).bal_r
    i1 := (yearW cfg idx yc s).bal_i
    unmet := (yearW cfg idx yc s).remaining
    provided := yearProvided cfg idx yc s
    shortfall := yearShortfall cfg idx yc s
    conv_raw := (yearConvRes cfg idx yc s).1
    rounds := (yearConvRes cfg idx yc s).2
    roth_conv := yearRothConv cfg idx yc s
    i1_after := (yearW cfg idx yc s).bal_i - yearRothConv cfg idx yc s
    r1_after := (yearW cfg idx yc s).bal_r + yearRothConv cfg idx yc s
    tax := (yearTaxRes cfg idx yc s).tax
    magi := (yearTaxRes cfg idx yc s).magi
    rmd_surplus := yearRmdSurplus cfg idx yc s
    b1_after := (yearW cfg idx yc s).bal_b + yearRmdSurplus cfg idx yc s
    end_b := ((yearW cfg idx yc s).bal_b + yearRmdSurplus cfg idx yc s)
      * (1 + cfg.brokerage_growth)
    end_r := ((yearW cfg idx yc s).bal_r + yearRothConv cfg idx yc s)
      * (1 + cfg.roth_growth)
    end_i := ((yearW cfg idx yc s).bal_i - yearRothConv cfg idx yc s)
      * (1 + cfg.ira_growth)
    target_spend := max 0 (yearSpendTarget cfg idx yc
      - (yearTaxRes cfg idx yc s).tax - yearEventsCash events yc) }

/-- One iteration of the loop body: the year-1 override at index 0, the
computed path afterwards; returns the next running balances together with
the emitted row and the year's full-precision values. -/
def yearStep (cfg : Config) (events : List Event) (idx : ℕ) (yc : YearCtx)
    (s : St) : St × Row × Aux :=
  let a := if idx = 0 then mkAux1 cfg else mkAuxN cfg events idx yc s
  (⟨a.end_b, a.end_r, a.end_i⟩, rowOf yc a, a)

/-- The loop over the timeline, carrying the enumeration index and the
running balances. -/
def runGo (cfg : Config) (events : List Event) :
    List YearCtx → ℕ → St → List (Row × Aux)
  | [], _, _ => []
  | yc :: rest, idx, s =>
    let t := yearStep cfg events idx yc s
    (t.2.1, t.2.2) :: runGo cfg events rest (idx + 1) t.1

/-- The timeline `run_plan` builds for a configuration. -/
def planYears (cfg : Config) : List YearCtx :=
  make_years cfg.start_year cfg.birth_year_person1 cfg.birth_year_person2
    cfg.final_age_person1 cfg.final_age_person2 cfg.gogo_years cfg.slow_years

/-- `run_plan` with the per-year intermediate values retained. -/
def runAuxFull (cfg : Config) (events : List Event) : List (Row × Aux) :=
  runGo cfg events (planYears cfg) 0
    ⟨cfg.balances_brokerage, cfg.balances_roth, cfg.balances_ira⟩

/-- The engine entry point (engine.py `run_plan`): one output row per
timeline year. -/
def run_plan (cfg : Config) (events : List Event) : List Row :=
  (runAuxFull cfg events).map (fun p => p.1)

/-! ## Lemmas about the rounding layer -/

/-- Half-up rounding of a non-negative value is non-negative. -/
lemma roundHalfUp_nonneg (x : ℚ) (hx : 0 ≤ x) : 0 ≤ roundHalfUp x := by
  unfold roundHalfUp
  rw [if_pos hx]
  exact Int.floor_nonneg.mpr (by linarith)

/-- Half-up rounding moves a value up by at most half a unit. -/
lemma roundHalfUp_le (x : ℚ) : (roundHalfUp x : ℚ) ≤ x + 1/2 := by
  unfold roundHalfUp
  split_ifs with h
  · exact_mod_cast Int.floor_le (x + 1/2)
  · have h1 : (-x + 1/2 : ℚ) - 1 < (⌊-x + 1/2⌋ : ℚ) := Int.sub_one_lt_floor _
    push_cast
    linarith

/-- Half-up rounding moves a value down by at most half a unit. -/
lemma roundHalfUp_ge (x : ℚ) : x - 1/2 ≤ (roundHalfUp x : ℚ) := by
  unfold roundHalfUp
  split_ifs with h
  · have h1 : (x + 1/2 : ℚ) - 1 < (⌊x + 1/2⌋ : ℚ) := Int.sub_one_lt_floor _
    linarith
  · have h1 : (⌊-x + 1/2⌋ : ℚ) ≤ -x + 1/2 := Int.floor_le _
    push_cast
    linarith

/-- The rounded value is strictly positive exactly when the raw value is
at least half a unit. -/
lemma roundHalfUp_pos_iff (x : ℚ) : 0 < roundHalfUp x ↔ 1/2 ≤ x := by
  unfold roundHalfUp
  split_ifs with h
  · rw [Int.lt_iff_add_one_le, zero_add, Int.le_floor]
    push_cast
    constructor <;> intro <;> linarith
  · constructor
    · intro hpos
      have h0 : 0 ≤ ⌊-x + 1/2⌋ := Int.floor_nonneg.mpr (by linarith)
      omega
    · intro hge
      linarith

/-! ## Lemmas about the withdrawal sequencer -/

/-- Invariant of the withdrawal loop: with non-negative balances and
remainder, the loop keeps every balance non-negative and never above its
entering value, keeps the remainder non-negative, accumulates each
bucket's debit into its draw, and decreases the remainder by exactly the
total debited. -/
lemma withdrawGo_spec :
    ∀ (legs : List Leg) (db dr di b r i rem : ℚ),
      0 ≤ b → 0 ≤ r → 0 ≤ i → 0 ≤ rem →
      0 ≤ (withdrawGo legs db dr di b r i rem).bal_b ∧
      0 ≤ (withdrawGo legs db dr di b r i rem).bal_r ∧
      0 ≤ (withdrawGo legs db dr di b r i rem).bal_i ∧
      0 ≤ (withdrawGo legs db dr di b r i rem).remaining ∧
      (withdrawGo legs db dr di b r i rem).bal_b ≤ b ∧
      (withdrawGo legs db dr di b r i rem).bal_r ≤ r ∧
      (withdrawGo legs db dr di b r i rem).bal_i ≤ i ∧
      (withdrawGo legs db dr di b r i rem).draw_b
        = db + (b - (withdrawGo legs db dr di b r i rem).bal_b) ∧
      (withdrawGo legs db dr di b r i rem).draw_r
        = dr + (r - (withdrawGo legs db dr di b r i rem).bal_r) ∧
      (withdrawGo legs db dr di b r i rem).draw_i
        = di + (i - (withdrawGo legs db dr di b r i rem).bal_i) ∧
      (withdrawGo legs db dr di b r i rem).remaining
        = rem - ((b - (withdrawGo legs db dr di b r i rem).bal_b)
            + (r - (withdrawGo legs db dr di b r i rem).bal_r)
            + (i - (withdrawGo legs db dr di b r i rem).bal_i)) := by
  intro legs
  induction legs with
  | nil =>
    intro db dr di b r i rem hb hr hi hrem
    simp only [withdrawGo]
    exact ⟨hb, hr, hi, hrem, le_rfl, le_rfl, le_rfl,
      by ring, by ring, by ring, by ring⟩
  | cons leg rest ih =>
    intro db dr di b r i rem hb hr hi hrem
    cases leg with
    | Brokerage =>
      have htc : min b rem ≤ b := min_le_left _ _
      have htr : min b rem ≤ rem := min_le_right _ _
      have ht0 : 0 ≤ min b rem := le_min hb hrem
      simp only [withdrawGo]
      split_ifs with hstop
      · dsimp only
        exact ⟨by linarith, hr, hi, by linarith, by linarith, le_rfl, le_rfl,
          by ring, by ring, by ring, by ring⟩
      · have h := ih (db + min b rem) dr di (b - min b rem) r i
          (rem - min b rem) (by linarith) hr hi (by linarith)
        obtain ⟨h1, h2, h3, h4, h5, h6, h7, h8, h9, h10, h11⟩ := h
        exact ⟨h1, h2, h3, h4, by linarith, h6, h7, by linarith, h9, h10,
          by linarith⟩
    | Roth =>
      have htc : min r rem ≤ r := min_le_left _ _
      have htr : min r rem ≤ rem := min_le_right _ _
      have ht0 : 0 ≤ min r rem := le_min hr hrem
      simp only [withdrawGo]
      split_ifs with hstop
      · dsimp only
        exact ⟨hb, by linarith, hi, by linarith, le_rfl, by linarith, le_rfl,
          by ring, by ring, by ring, by ring⟩
      · have h := ih db (dr + min r rem) di b (r - min r rem) i
          (rem - min r rem) hb (by linarith) hi (by linarith)
        obtain ⟨h1, h2, h3, h4, h5, h6, h7, h8, h9, h10, h11⟩ := h
        exact ⟨h1, h2, h3, h4, h5, by linarith, h7, h8, by linarith, h10,
          by linarith⟩
    | IRA =>
      have htc : min i rem ≤ i := min_le_left _ _
      have htr : min i rem ≤ rem := min_le_right _ _
      have ht0 : 0 ≤ min i rem := le_min hi hrem
      simp only [withdrawGo]
      split_ifs with hstop
      · dsimp only
        exact ⟨hb, hr, by linarith, by linarith, le_rfl, le_rfl, by linarith,
          by ring, by ring, by ring, by ring⟩
      · have h := ih db dr (di + min i rem) b r (i - min i rem)
          (rem - min i rem) hb hr (by linarith) (by linarith)
        obtain ⟨h1, h2, h3, h4, h5, h6, h7, h8, h9, h10, h11⟩ := h
        exact ⟨h1, h2, h3, h4, h5, h6, by linarith, h8, h9, by linarith,
          by linarith⟩

/-- C1: for every non-negative need, non-negative balances and priority
order, the withdrawal sequencer takes `min(balance, remaining)` from each
bucket in order: no draw is negative, no draw exceeds that bucket's
entering balance, every resulting balance is the entering balance minus
the draw, and the unmet remainder is the need minus the total drawn; for
the order Brokerage→Roth→IRA with need 50,000 against balances
(30,000, 10,000, 100,000) the draws are (30,000, 10,000, 10,000) with
zero unmet remainder. -/
theorem withdraw_with_order_correct (b r i need : ℚ) (order : List Leg)
    (hb : 0 ≤ b) (hr : 0 ≤ r) (hi : 0 ≤ i) (hneed : 0 ≤ need) :
    (0 ≤ (withdraw_with_order b r i need order).draw_b ∧
     0 ≤ (withdraw_with_order b r i need order).draw_r ∧
     0 ≤ (withdraw_with_order b r i need order).draw_i ∧
     (withdraw_with_order b r i need order).draw_b ≤ b ∧
     (withdraw_with_order b r i need order).draw_r ≤ r ∧
     (withdraw_with_order b r i need order).draw_i ≤ i ∧
     (withdraw_with_order b r i need order).bal_b
       = b - (withdraw_with_order b r i need order).draw_b ∧
     (withdraw_with_order b r i need order).bal_r
       = r - (withdraw_with_order b r i need order).draw_r ∧
     (withdraw_with_order b r i need order).bal_i
       = i - (withdraw_with_order b r i need order).draw_i ∧
     0 ≤ (withdraw_with_order b r i need order).remaining ∧
     (withdraw_with_order b r i need order).remaining
       = need - ((withdraw_with_order b r i need order).draw_b
           + (withdraw_with_order b r i need order).draw_r
           + (withdraw_with_order b r i need order).draw_i)) ∧
    withdraw_with_order 30000 10000 100000 50000
      [Leg.Brokerage, Leg.Roth, Leg.IRA]
      = ⟨30000, 10000, 10000, 0, 0, 90000, 0⟩ := by
  constructor
  · have h := withdrawGo_spec order 0 0 0 b r i (max 0 need)
      hb hr hi (le_max_left _ _)
    rw [max_eq_right hneed] at h
    obtain ⟨h1, h2, h3, h4, h5, h6, h7, h8, h9, h10, h11⟩ := h
    unfold withdraw_with_order
    rw [max_eq_right hneed]
    refine ⟨by linarith, by linarith, by linarith, by linarith, by linarith,
      by linarith, by linarith, by linarith, by linarith, h4, by linarith⟩
  · norm_num [withdraw_with_order, withdrawGo, min_def, max_def]

/-- Witness for C1: the general contract applied at the spec's concrete
example. -/
theorem withdraw_with_order_correct_witness :
    withdraw_with_order 30000 10000 100000 50000
      [Leg.Brokerage, Leg.Roth, Leg.IRA]
      = ⟨30000, 10000, 10000, 0, 0, 90000, 0⟩ :=
  (withdraw_with_order_correct 30000 10000 100000 50000
    [Leg.Brokerage, Leg.Roth, Leg.IRA] (by norm_num) (by norm_num)
    (by norm_num) (by norm_num)).2

/-- Half-up rounding fixes integral values. -/
lemma roundHalfUp_intCast (n : ℤ) : roundHalfUp (n : ℚ) = n := by
  unfold roundHalfUp
  split_ifs with h
  · rw [Int.floor_eq_iff]
    constructor <;> norm_num
  · have hfl : ⌊-(n : ℚ) + 1/2⌋ = -n := by
      rw [Int.floor_eq_iff]
      constructor <;> push_cast <;> linarith
    rw [hfl, neg_neg]

/-! ## Lemmas about the RMD table lookup -/

/-- A successful scan over a strictly descending table returns an entry
of the table whose age is at most the input and is the greatest such
tabulated age. -/
lemma lookupFactor_spec {l : List (ℤ × ℚ)}
    (hs : l.Pairwise (fun p q => q.1 < p.1)) {age : ℤ} {p : ℤ × ℚ}
    (h : lookupFactor l age = some p) :
    p ∈ l ∧ p.1 ≤ age ∧ ∀ q ∈ l, q.1 ≤ age → q.1 ≤ p.1 := by
  induction l with
  | nil => simp [lookupFactor] at h
  | cons hd tl ih =>
    rw [List.pairwise_cons] at hs
    obtain ⟨hhd, htl⟩ := hs
    simp only [lookupFactor] at h
    split_ifs at h with hle
    · obtain rfl : hd = p := by injection h
      refine ⟨List.mem_cons_self _ _, hle, ?_⟩
      intro q hq _
      rcases List.mem_cons.mp hq with h1 | h2
      · exact le_of_eq (congrArg Prod.fst h1)
      · exact le_of_lt (hhd q h2)
    · obtain ⟨hmem, hple, hmax⟩ := ih htl h
      refine ⟨List.mem_cons_of_mem _ hmem, hple, ?_⟩
      intro q hq hq2
      rcases List.mem_cons.mp hq with h1 | h2
      · exact absurd (h1 ▸ hq2) hle
      · exact hmax q h2 hq2

/-- A failed scan means every tabulated age exceeds the input. -/
lemma lookupFactor_none {l : List (ℤ × ℚ)} {age : ℤ}
    (h : lookupFactor l age = none) : ∀ q ∈ l, age < q.1 := by
  induction l with
  | nil => intro q hq; simp at hq
  | cons hd tl ih =>
    simp only [lookupFactor] at h
    split_ifs at h with hle
    intro q hq
    rcases List.mem_cons.mp hq with h1 | h2
    · exact h1 ▸ lt_of_not_le hle
    · exact ih h q h2

/-- The Uniform Lifetime table is listed in strictly descending age
order. -/
lemma uniformLifetime_sorted :
    uniformLifetime.Pairwise (fun p q => q.1 < p.1) := by
  haveI : IsTrans (ℤ × ℚ) (fun p q => q.1 < p.1) :=
    ⟨fun _ _ _ h1 h2 => lt_trans h2 h1⟩
  have h : List.Chain' (fun p q : ℤ × ℚ => q.1 < p.1) uniformLifetime := by
    simp only [uniformLifetime, List.chain'_cons, List.chain'_singleton]
    norm_num
  exact List.chain'_iff_pairwise.mp h

/-- Every factor in the Uniform Lifetime table is at least one. -/
lemma uniformLifetime_factor_ge_one : ∀ q ∈ uniformLifetime, (1 : ℚ) ≤ q.2 := by
  unfold uniformLifetime
  norm_num [List.forall_mem_cons]

/-- A factor found by the scan over a table of factors at least one is at
least one. -/
lemma lookupFactor_ge_one {l : List (ℤ × ℚ)} (hl : ∀ q ∈ l, (1 : ℚ) ≤ q.2)
    {age : ℤ} {p : ℤ × ℚ} (h : lookupFactor l age = some p) : 1 ≤ p.2 := by
  induction l with
  | nil => simp [lookupFactor] at h
  | cons hd tl ih =>
    simp only [lookupFactor] at h
    split_ifs at h with hle
    · obtain rfl : hd = p := by injection h
      exact hl _ (List.mem_cons_self _ _)
    · exact ih (fun q hq => hl q (List.mem_cons_of_mem _ hq)) h

/-- Every factor `rmd_factor` can return is at least one. -/
lemma rmd_factor_ge_one {age : ℤ} {f : ℚ} (h : rmd_factor age = some f) :
    1 ≤ f := by
  unfold rmd_factor at h
  split_ifs at h with h73
  cases heq : lookupFactor uniformLifetime age with
  | some p =>
    rw [heq] at h
    obtain rfl : p.2 = f := by injection h
    exact lookupFactor_ge_one uniformLifetime_factor_ge_one heq
  | none =>
    rw [heq] at h
    obtain rfl : (265 / 10 : ℚ) = f := by injection h
    norm_num

/-- The engine's RMD is non-negative and never exceeds the opening
pre-tax balance. -/
lemma rmdAmount_bounds (alive : Bool) (age start : ℤ) (i : ℚ) (hi : 0 ≤ i) :
    0 ≤ rmdAmount alive age start i ∧ rmdAmount alive age start i ≤ i := by
  unfold rmdAmount
  split_ifs with hcond
  · cases heq : rmd_factor age with
    | none => exact ⟨le_rfl, hi⟩
    | some f =>
      have hf : 1 ≤ f := rmd_factor_ge_one heq
      constructor
      · exact div_nonneg hi (by linarith)
      · exact div_le_self hi hf
  · exact ⟨le_rfl, hi⟩

/-- C6: at age one below the configured RMD start age the engine's RMD is
zero; at the start age with person 1 alive and a positive opening pre-tax
balance, the RMD is the balance divided by the Uniform Lifetime factor of
the greatest tabulated age at or below that age, and a start age below
the table's age 73 gives the infinite factor and hence a zero RMD. -/
theorem rmd_boundary (alive : Bool) (age start : ℤ) (ira : ℚ) :
    (age = start - 1 → rmdAmount alive age start ira = 0) ∧
    (alive = true → age = start → 0 < ira →
      ((start < 73 → rmdAmount alive age start ira = 0) ∧
       (73 ≤ start → ∃ a f, (a, f) ∈ uniformLifetime ∧ a ≤ age ∧
          (∀ q ∈ uniformLifetime, q.1 ≤ age → q.1 ≤ a) ∧
          rmd_factor age = some f ∧
          rmdAmount alive age start ira = ira / f))) := by
  constructor
  · intro hage
    unfold rmdAmount
    rw [if_neg]
    rintro ⟨-, h2, -⟩
    omega
  · intro halive hage hira
    constructor
    · intro h73
      unfold rmdAmount
      rw [if_pos ⟨halive, by omega, hira⟩]
      unfold rmd_factor
      rw [if_pos (by omega : age < 73)]
    · intro h73
      have hnone : lookupFactor uniformLifetime age ≠ none := by
        intro hn
        have h115 : age < 73 :=
          lookupFactor_none hn (73, 265/10) (by norm_num [uniformLifetime])
        omega
      obtain ⟨p, hp⟩ := Option.ne_none_iff_exists'.mp hnone
      obtain ⟨hmem, hple, hmax⟩ := lookupFactor_spec uniformLifetime_sorted hp
      obtain ⟨a, f⟩ := p
      refine ⟨a, f, hmem, hple, hmax, ?_, ?_⟩
      · unfold rmd_factor
        rw [if_neg (by omega), hp]
      · unfold rmdAmount
        rw [if_pos ⟨halive, by omega, hira⟩]
        unfold rmd_factor
        rw [if_neg (by omega), hp]

/-- Witness for C6: a start age of 73, ages 72 and 73, balance 1000. -/
theorem rmd_boundary_witness :
    rmdAmount true 72 73 (1000 : ℚ) = 0 ∧
    (∃ a f, (a, f) ∈ uniformLifetime ∧ a ≤ 73 ∧
      (∀ q ∈ uniformLifetime, q.1 ≤ 73 → q.1 ≤ a) ∧
      rmd_factor 73 = some f ∧
      rmdAmount true 73 73 (1000 : ℚ) = 1000 / f) :=
  ⟨(rmd_boundary true 72 73 1000).1 (by norm_num),
   ((rmd_boundary true 73 73 1000).2 rfl rfl (by norm_num)).2 (by norm_num)⟩

/-- C5: the engine's combined Social Security income is the sum of the
two scheduled benefits when both persons are alive, the larger schedule
when exactly one is alive, and zero when neither is. -/
theorem survivor_ss_combination (alive1 alive2 : Bool) (ss1 ss2 : ℚ) :
    (alive1 = true → alive2 = true →
      ssCombined alive1 alive2 ss1 ss2 = ss1 + ss2) ∧
    (alive1 ≠ alive2 → ssCombined alive1 alive2 ss1 ss2 = max ss1 ss2) ∧
    (alive1 = false → alive2 = false →
      ssCombined alive1 alive2 ss1 ss2 = 0) := by
  cases alive1 <;> cases alive2 <;> simp [ssCombined]

/-- Witness for C5: the three aliveness situations at concrete benefit
schedules. -/
theorem survivor_ss_combination_witness :
    ssCombined true false 1000 1500 = max 1000 1500 ∧
    ssCombined true true 1000 1500 = 1000 + 1500 ∧
    ssCombined false false 1000 1500 = 0 :=
  ⟨(survivor_ss_combination true false 1000 1500).2.1 (by decide),
   (survivor_ss_combination true true 1000 1500).1 rfl rfl,
   (survivor_ss_combination false false 1000 1500).2.2 rfl rfl⟩

/-! ## Lemmas about the timeline builder -/

/-- The final calendar year of the timeline as `make_years` computes it:
person 1's last living year against person 2's when both person-2 fields
are present and non-zero (Python truthiness), defaulting to the start
year otherwise. -/
def timelineLastYear (start_year birth_person1 : ℤ) (birth_person2 : Option ℤ)
    (final_age_person1 : ℤ) (final_age_person2 : Option ℤ) : ℤ :=
  max (birth_person1 + final_age_person1)
    (if pyTruthy birth_person2 && pyTruthy final_age_person2 then
      birth_person2.getD 0 + final_age_person2.getD 0
    else start_year)

/-- C8 (amended): the timeline is the ordered run of calendar years from
the start year through the later of the two persons' last living years
(with person 2's last year defaulting to the start year when the person-2
fields are absent or zero); a degenerate single-person configuration
yields a one-row timeline, while a degenerate two-person configuration
yields an empty one. -/
theorem make_years_range (start birth1 : ℤ) (birth2 : Option ℤ) (final1 : ℤ)
    (final2 : Option ℤ) (gogo slow : ℤ) :
    ((make_years start birth1 birth2 final1 final2 gogo slow).length
       = (timelineLastYear start birth1 birth2 final1 final2 + 1 - start).toNat) ∧
    (∀ k (h : k < (make_years start birth1 birth2 final1 final2 gogo slow).length),
       ((make_years start birth1 birth2 final1 final2 gogo slow).get ⟨k, h⟩).year
         = start + k) ∧
    (birth2 = none → birth1 + final1 < start →
      (make_years start birth1 birth2 final1 final2 gogo slow).length = 1) := by
  have hlen : (make_years start birth1 birth2 final1 final2 gogo slow).length
      = (timelineLastYear start birth1 birth2 final1 final2 + 1 - start).toNat := by
    simp only [make_years, timelineLastYear, List.length_map, List.length_range]
  refine ⟨hlen, ?_, ?_⟩
  · intro k h
    simp only [make_years, List.get_eq_getElem, List.getElem_map,
      List.getElem_range]
  · intro h2 hlt
    rw [hlen]
    subst h2
    unfold timelineLastYear
    simp only [pyTruthy, Bool.false_and]
    rw [if_neg (by simp), max_eq_right (le_of_lt hlt)]
    omega

/-- Witness for C8: a single-person degenerate configuration (start year
2030, last living year 1980) produces exactly one row. -/
theorem make_years_range_witness :
    (make_years 2030 1900 none 80 none 5 5).length = 1 :=
  (make_years_range 2030 1900 none 80 none 5 5).2.2 rfl (by norm_num)

/-- Counterexample for C8 as stated: a two-person configuration whose
start year 2030 lies after both persons' final years (1980 and 1981)
produces an empty timeline, not a one-row one. -/
theorem make_years_degenerate_counterexample :
    (make_years 2030 1900 (some 1901) 80 (some 80) 5 5).length = 0 ∧
    (make_years 2030 1900 (some 1901) 80 (some 80) 5 5).length ≠ 1 := by
  constructor <;> decide

/-! ## Lemmas about the tax/MAGI evaluator and the conversion search -/

/-- The taxable Social Security amount never decreases as other ordinary
income grows. -/
lemma ss_taxable_amount_mono (ss : ℚ) (f : Filing) {o1 o2 : ℚ}
    (h : o1 ≤ o2) : ss_taxable_amount ss o1 f ≤ ss_taxable_amount ss o2 f := by
  unfold ss_taxable_amount
  by_cases hss : ss ≤ 0
  · simp only [if_pos hss]
    exact le_rfl
  · simp only [if_neg hss]
    push_neg at hss
    obtain ⟨hb0, hba⟩ :
        0 ≤ (ss_thresholds f).1 ∧ (ss_thresholds f).1 ≤ (ss_thresholds f).2 := by
      cases f <;> norm_num [ss_thresholds]
    set base := (ss_thresholds f).1 with hbase
    set addl := (ss_thresholds f).2 with haddl
    by_cases h2 : o2 + ss / 2 ≤ base
    · rw [if_pos h2, if_pos (by linarith)]
    · rw [if_neg h2]
      by_cases h1 : o1 + ss / 2 ≤ base
      · rw [if_pos h1]
        exact le_min (by linarith) (le_max_left 0 _)
      · rw [if_neg h1]
        apply min_le_min le_rfl
        apply max_le_max le_rfl
        apply add_le_add
        · have hq : min (o1 + ss / 2 - base) (addl - base)
              ≤ min (o2 + ss / 2 - base) (addl - base) :=
            min_le_min (by linarith) le_rfl
          by_cases hq1 : 0 < min (o1 + ss / 2 - base) (addl - base)
          · rw [if_pos hq1, if_pos (lt_of_lt_of_le hq1 hq)]
            have hmin : min ss (min (o1 + ss / 2 - base) (addl - base) * 2)
                ≤ min ss (min (o2 + ss / 2 - base) (addl - base) * 2) :=
              min_le_min le_rfl (by linarith)
            linarith
          · rw [if_neg hq1]
            by_cases hq2 : 0 < min (o2 + ss / 2 - base) (addl - base)
            · rw [if_pos hq2]
              have hnn : 0 ≤ min ss (min (o2 + ss / 2 - base) (addl - base) * 2) :=
                le_min (le_of_lt hss) (by linarith)
              linarith
            · rw [if_neg hq2]
        · have hmx : max 0 (o1 + ss / 2 - addl) ≤ max 0 (o2 + ss / 2 - addl) :=
            max_le_max le_rfl (by linarith)
          linarith

/-- MAGI as the solver evaluates it at conversion `c`: with non-negative
pre-conversion ordinary income `b` and non-negative conversions, raising
the conversion raises MAGI by at least the same amount (the conversion
enters ordinary income twice in the engine's call, and the taxable
Social Security portion never decreases). -/
lemma magi_slope (b ss std : ℚ) (f : Filing) {c1 c2 : ℚ}
    (hb : 0 ≤ b) (hc1 : 0 ≤ c1) (hc : c1 ≤ c2) :
    (compute_tax_magi (b + c1) c1 ss std f).magi + (c2 - c1)
      ≤ (compute_tax_magi (b + c2) c2 ss std f).magi := by
  have h1 : max 0 (b + c1 + c1) = b + c1 + c1 := max_eq_right (by linarith)
  have h2 : max 0 (b + c2 + c2) = b + c2 + c2 := max_eq_right (by linarith)
  simp only [compute_tax_magi]
  rw [h1, h2]
  have hm := ss_taxable_amount_mono ss f
    (show b + c1 + c1 ≤ b + c2 + c2 by linarith)
  linarith

/-- The conversion search executes at most two rounds: the first step
either closes the whole MAGI gap (so the second-round gap is below the
dollar tolerance) or exhausts the IRA headroom (so the second-round step
is below it); either way round two stops. -/
lemma convSearch_rounds_le_two (rmd draw_ira ss std : ℚ) (f : Filing)
    (target : ℚ) (alive : Bool) (age aca : ℤ) (i1 : ℚ)
    (h1 : 0 ≤ rmd) (h2 : 0 ≤ draw_ira) (fuel : ℕ) :
    (convSearch rmd draw_ira ss std f target alive age aca i1 (fuel + 2) 0).2
      ≤ 2 := by
  rw [show fuel + 2 = (fuel + 1) + 1 from rfl]
  simp only [convSearch, zero_add, add_zero, sub_zero]
  split_ifs with hC hgap hstep hgap2 hstep2
  · norm_num
  · norm_num
  · norm_num
  · norm_num
  · norm_num
  · exfalso
    push_neg at hgap hstep hgap2 hstep2
    set magi0 := (compute_tax_magi (rmd + draw_ira) 0 ss std f).magi
      with hmagi0
    set step0 := min (target - magi0) (max 0 i1) with hstep0
    rcases le_total (target - magi0) (max 0 i1) with hmin | hmin
    · have hs0 : step0 = target - magi0 := min_eq_left hmin
      have hslope := magi_slope (rmd + draw_ira) ss std f
        (by linarith) (le_refl 0) (show (0:ℚ) ≤ step0 by linarith)
      simp only [add_zero, sub_zero] at hslope
      linarith
    · have hs0 : step0 = max 0 i1 := min_eq_right hmin
      have hle : min (target - (compute_tax_magi (rmd + draw_ira + step0)
          step0 ss std f).magi) (max 0 i1 - step0) ≤ max 0 i1 - step0 :=
        min_le_right _ _
      linarith

/-- C4: in every simulated year, the Roth conversion equilibrium search
evaluates the Tax/MAGI Evaluator at most twice before stopping, so the
year's total number of `compute_tax_magi` evaluations — the search's
rounds plus the one final evaluation at the chosen conversion — is at
most 8, well within the hard cap of 8 rounds. -/
theorem roth_solver_eval_bound (rmd draw_ira ss std : ℚ) (f : Filing)
    (target : ℚ) (alive : Bool) (age aca : ℤ) (i1 : ℚ)
    (h1 : 0 ≤ rmd) (h2 : 0 ≤ draw_ira) :
    (convSearch rmd draw_ira ss std f target alive age aca i1 8 0).2 + 1
      ≤ 8 := by
  have h := convSearch_rounds_le_two rmd draw_ira ss std f target alive age
    aca i1 h1 h2 6
  norm_num at h
  omega

/-- Witness for C4: the bound instantiated at a concrete year with zero
income and target. -/
theorem roth_solver_eval_bound_witness :
    (convSearch 0 0 0 0 Filing.Single 0 true 64 65 1000 8 0).2 + 1 ≤ 8 :=
  roth_solver_eval_bound 0 0 0 0 Filing.Single 0 true 64 65 1000
    (le_refl 0) (le_refl 0)

/-! ## Invariants of the simulation loop -/

/-- Contract of the withdrawal sequencer needed by the loop invariant:
with non-negative balances (and any need), draws are non-negative and
resulting balances are non-negative and bounded by the entering ones. -/
lemma withdraw_with_order_spec (b r i need : ℚ) (order : List Leg)
    (hb : 0 ≤ b) (hr : 0 ≤ r) (hi : 0 ≤ i) :
    0 ≤ (withdraw_with_order b r i need order).draw_b ∧
    0 ≤ (withdraw_with_order b r i need order).draw_r ∧
    0 ≤ (withdraw_with_order b r i need order).draw_i ∧
    0 ≤ (withdraw_with_order b r i need order).bal_b ∧
    0 ≤ (withdraw_with_order b r i need order).bal_r ∧
    0 ≤ (withdraw_with_order b r i need order).bal_i ∧
    (withdraw_with_order b r i need order).bal_b ≤ b ∧
    (withdraw_with_order b r i need order).bal_r ≤ r ∧
    (withdraw_with_order b r i need order).bal_i ≤ i := by
  have h := withdrawGo_spec order 0 0 0 b r i (max 0 need)
    hb hr hi (le_max_left _ _)
  obtain ⟨h1, h2, h3, h4, h5, h6, h7, h8, h9, h10, h11⟩ := h
  unfold withdraw_with_order
  exact ⟨by linarith, by linarith, by linarith, h1, h2, h3, h5, h6, h7⟩

/-- The conversion search never lowers the conversion amount, so a
non-negative start stays non-negative. -/
lemma convSearch_conv_nonneg (rmd draw_ira ss std : ℚ) (f : Filing)
    (target : ℚ) (alive : Bool) (age aca : ℤ) (i1 : ℚ) :
    ∀ (fuel : ℕ) (conv : ℚ), 0 ≤ conv →
      0 ≤ (convSearch rmd draw_ira ss std f target alive age aca i1
        fuel conv).1 := by
  intro fuel
  induction fuel with
  | zero =>
    intro conv hc
    simpa [convSearch] using hc
  | succ n ih =>
    intro conv hc
    simp only [convSearch]
    split_ifs with hC hgap hstep
    · exact hc
    · exact hc
    · exact hc
    · dsimp only
      apply ih
      push_neg at hstep
      linarith

/-- Bounds on the year's withdrawal result under non-negative opening
balances. -/
lemma yearW_spec (cfg : Config) (idx : ℕ) (yc : YearCtx) (s : St)
    (hb : 0 ≤ s.b) (hr : 0 ≤ s.r) (hi : 0 ≤ s.i) :
    0 ≤ (yearW cfg idx yc s).draw_b ∧
    0 ≤ (yearW cfg idx yc s).draw_r ∧
    0 ≤ (yearW cfg idx yc s).draw_i ∧
    0 ≤ (yearW cfg idx yc s).bal_b ∧
    0 ≤ (yearW cfg idx yc s).bal_r ∧
    0 ≤ (yearW cfg idx yc s).bal_i ∧
    (yearW cfg idx yc s).bal_b ≤ s.b ∧
    (yearW cfg idx yc s).bal_r ≤ s.r ∧
    (yearW cfg idx yc s).bal_i ≤ s.i - yearRmd cfg yc s := by
  have hrmd := rmdAmount_bounds yc.person1_alive yc.age_person1
    cfg.rmd_start_age s.i hi
  have h := withdraw_with_order_spec s.b s.r (s.i - yearRmd cfg yc s)
    (yearNeed cfg idx yc s) cfg.draw_order hb hr
    (by unfold yearRmd; linarith [hrmd.2])
  exact h

/-- The applied conversion is non-negative and, when the post-draw IRA
balance is non-negative, bounded by it. -/
lemma yearRothConv_spec (cfg : Config) (idx : ℕ) (yc : YearCtx) (s : St)
    (hi1 : 0 ≤ (yearW cfg idx yc s).bal_i) :
    0 ≤ yearRothConv cfg idx yc s ∧
    yearRothConv cfg idx yc s ≤ (yearW cfg idx yc s).bal_i := by
  constructor
  · apply le_min
    · exact convSearch_conv_nonneg _ _ _ _ _ _ _ _ _ _ 8 0 le_rfl
    · exact le_max_left _ _
  · calc yearRothConv cfg idx yc s ≤ max 0 (yearW cfg idx yc s).bal_i :=
        min_le_right _ _
      _ = (yearW cfg idx yc s).bal_i := max_eq_right hi1

/-- The surplus RMD sweep is non-negative. -/
lemma yearRmdSurplus_nonneg (cfg : Config) (idx : ℕ) (yc : YearCtx) (s : St) :
    0 ≤ yearRmdSurplus cfg idx yc s :=
  le_max_left _ _

/-- Non-first-year step: with non-negative opening balances and growth
rates at least −100%, all three ending balances are non-negative. -/
lemma mkAuxN_invariant (cfg : Config) (events : List Event) (idx : ℕ)
    (yc : YearCtx) (s : St) (hb : 0 ≤ s.b) (hr : 0 ≤ s.r) (hi : 0 ≤ s.i)
    (hgb : -1 ≤ cfg.brokerage_growth) (hgr : -1 ≤ cfg.roth_growth)
    (hgi : -1 ≤ cfg.ira_growth) :
    0 ≤ (mkAuxN cfg events idx yc s).end_b ∧
    0 ≤ (mkAuxN cfg events idx yc s).end_r ∧
    0 ≤ (mkAuxN cfg events idx yc s).end_i := by
  obtain ⟨hd1, hd2, hd3, hw1, hw2, hw3, hl1, hl2, hl3⟩ :=
    yearW_spec cfg idx yc s hb hr hi
  obtain ⟨hc0, hc1⟩ := yearRothConv_spec cfg idx yc s hw3
  have hsur := yearRmdSurplus_nonneg cfg idx yc s
  refine ⟨?_, ?_, ?_⟩
  · show 0 ≤ ((yearW cfg idx yc s).bal_b + yearRmdSurplus cfg idx yc s)
      * (1 + cfg.brokerage_growth)
    exact mul_nonneg (by linarith) (by linarith)
  · show 0 ≤ ((yearW cfg idx yc s).bal_r + yearRothConv cfg idx yc s)
      * (1 + cfg.roth_growth)
    exact mul_nonneg (by linarith) (by linarith)
  · show 0 ≤ ((yearW cfg idx yc s).bal_i - yearRothConv cfg idx yc s)
      * (1 + cfg.ira_growth)
    exact mul_nonneg (by linarith) (by linarith)

/-- First-year step: if each user-supplied draw is within its opening
balance and growth rates are at least −100%, all three ending balances
are non-negative. -/
lemma mkAux1_invariant (cfg : Config)
    (hdb : cfg.year1_brokerage_draw ≤ cfg.balances_brokerage)
    (hdr : cfg.year1_roth_draw ≤ cfg.balances_roth)
    (hdi : cfg.year1_ira_draw ≤ cfg.balances_ira)
    (hgb : -1 ≤ cfg.brokerage_growth) (hgr : -1 ≤ cfg.roth_growth)
    (hgi : -1 ≤ cfg.ira_growth) :
    0 ≤ (mkAux1 cfg).end_b ∧ 0 ≤ (mkAux1 cfg).end_r ∧
    0 ≤ (mkAux1 cfg).end_i := by
  refine ⟨?_, ?_, ?_⟩
  · show 0 ≤ (cfg.balances_brokerage - cfg.year1_brokerage_draw)
      * (1 + cfg.brokerage_growth)
    exact mul_nonneg (by linarith) (by linarith)
  · show 0 ≤ (cfg.balances_roth - cfg.year1_roth_draw)
      * (1 + cfg.roth_growth)
    exact mul_nonneg (by linarith) (by linarith)
  · show 0 ≤ (cfg.balances_ira - cfg.year1_ira_draw) * (1 + cfg.ira_growth)
    exact mul_nonneg (by linarith) (by linarith)

/-- The step at a non-zero index takes the computed branch. -/
lemma yearStep_of_ne (cfg : Config) (events : List Event) {idx : ℕ}
    (yc : YearCtx) (s : St) (h : idx ≠ 0) :
    yearStep cfg events idx yc s =
      (⟨(mkAuxN cfg events idx yc s).end_b, (mkAuxN cfg events idx yc s).end_r,
        (mkAuxN cfg events idx yc s).end_i⟩,
       rowOf yc (mkAuxN cfg events idx yc s), mkAuxN cfg events idx yc s) := by
  unfold yearStep
  rw [if_neg h]

/-- The step at index zero takes the user-override branch. -/
lemma yearStep_zero (cfg : Config) (events : List Event) (yc : YearCtx)
    (s : St) :
    yearStep cfg events 0 yc s =
      (⟨(mkAux1 cfg).end_b, (mkAux1 cfg).end_r, (mkAux1 cfg).end_i⟩,
       rowOf yc (mkAux1 cfg), mkAux1 cfg) := by
  unfold yearStep
  rw [if_pos rfl]

/-- Invariant of the loop on non-first years: every emitted row has
non-negative ending balances, and every year's conversion is the clamped
amount, non-negative, within the post-draw IRA balance, and transferred
one-for-one from the IRA to the Roth bucket. -/
lemma runGo_invariant (cfg : Config) (events : List Event)
    (hgb : -1 ≤ cfg.brokerage_growth) (hgr : -1 ≤ cfg.roth_growth)
    (hgi : -1 ≤ cfg.ira_growth) :
    ∀ (ycs : List YearCtx) (idx : ℕ) (s : St), idx ≠ 0 →
      0 ≤ s.b → 0 ≤ s.r → 0 ≤ s.i →
      ∀ p ∈ runGo cfg events ycs idx s,
        (0 ≤ p.1.Brokerage_Balance ∧ 0 ≤ p.1.Roth_Balance ∧
          0 ≤ p.1.IRA_Balance) ∧
        (p.2.roth_conv = min p.2.conv_raw (max 0 p.2.i1) ∧
          0 ≤ p.2.roth_conv ∧ p.2.roth_conv ≤ p.2.i1 ∧
          p.2.i1_after = p.2.i1 - p.2.roth_conv ∧
          p.2.r1_after = p.2.r1 + p.2.roth_conv) := by
  intro ycs
  induction ycs with
  | nil =>
    intro idx s _ _ _ _ p hp
    simp [runGo] at hp
  | cons yc rest ih =>
    intro idx s hidx hb hr hi p hp
    simp only [runGo, List.mem_cons] at hp
    have hend := mkAuxN_invariant cfg events idx yc s hb hr hi hgb hgr hgi
    obtain ⟨-, -, -, -, -, hw3, -, -, -⟩ := yearW_spec cfg idx yc s hb hr hi
    obtain ⟨hc0, hc1⟩ := yearRothConv_spec cfg idx yc s hw3
    rcases hp with rfl | hp
    · rw [yearStep_of_ne cfg events yc s hidx]
      constructor
      · exact ⟨roundHalfUp_nonneg _ hend.1, roundHalfUp_nonneg _ hend.2.1,
          roundHalfUp_nonneg _ hend.2.2⟩
      · exact ⟨rfl, hc0, hc1, rfl, rfl⟩
    · rw [yearStep_of_ne cfg events yc s hidx] at hp
      exact ih (idx + 1) _ (Nat.succ_ne_zero idx) hend.1 hend.2.1 hend.2.2
        p hp

/-! ## Concrete configurations for witnesses and counterexamples -/

/-- A small single-person configuration: two simulated years (2024-2025),
zero rates, benefits of 20,000 from age 62, never reaching the RMD age. -/
def sampleCfg : Config where
  start_year := 2024
  birth_year_person1 := 1959
  birth_year_person2 := none
  final_age_person1 := 66
  final_age_person2 := none
  filing_status := .Single
  balances_brokerage := 100000
  balances_roth := 50000
  balances_ira := 200000
  target_spend := 40000
  gogo_percent := 100
  slow_percent := 80
  nogo_percent := 70
  gogo_years := 1
  slow_years := 1
  survivor_percent := 100
  ss_person1_start_age := 62
  ss_person1_annual_at_start := 20000
  ss_person2_start_age := none
  ss_person2_annual_at_start := none
  inflation := 0
  brokerage_growth := 0
  roth_growth := 0
  ira_growth := 0
  magi_target_base := 0
  standard_deduction_base := 14600
  rmd_start_age := 73
  aca_end_age := 65
  draw_order := [.Brokerage, .Roth, .IRA]
  year1_spend := 40000
  year1_ira_draw := 0
  year1_brokerage_draw := 40000
  year1_roth_draw := 0
  year1_cash_events := 0

/-- `sampleCfg` with an empty brokerage bucket but a year-1 brokerage
draw of 1000: the year-1 override overdraws the bucket. -/
def overdrawCfg : Config :=
  { sampleCfg with balances_brokerage := 0, year1_brokerage_draw := 1000 }

/-- `sampleCfg` with a year-1 spend of 50,000 and no year-1 draws at
all: the first year's cash provided falls far short of its spend. -/
def shortCfg : Config :=
  { sampleCfg with year1_spend := 50000, year1_brokerage_draw := 0 }

/-! ## C2: balance non-negativity -/

/-- C2 (amended): whenever the opening balances are non-negative, each
year-1 user draw is within its bucket's opening balance, and every growth
rate is at least −100%, every row `run_plan` emits has non-negative
Brokerage, Roth and IRA ending balances. -/
theorem run_plan_balances_nonneg (cfg : Config) (events : List Event)
    (hdb : cfg.year1_brokerage_draw ≤ cfg.balances_brokerage)
    (hdr : cfg.year1_roth_draw ≤ cfg.balances_roth)
    (hdi : cfg.year1_ira_draw ≤ cfg.balances_ira)
    (hgb : -1 ≤ cfg.brokerage_growth) (hgr : -1 ≤ cfg.roth_growth)
    (hgi : -1 ≤ cfg.ira_growth) :
    ∀ row ∈ run_plan cfg events,
      0 ≤ row.Brokerage_Balance ∧ 0 ≤ row.Roth_Balance ∧
      0 ≤ row.IRA_Balance := by
  intro row hrow
  unfold run_plan at hrow
  rw [List.mem_map] at hrow
  obtain ⟨p, hp, rfl⟩ := hrow
  unfold runAuxFull at hp
  have h1 := mkAux1_invariant cfg hdb hdr hdi hgb hgr hgi
  cases hy : planYears cfg with
  | nil =>
    rw [hy] at hp
    simp [runGo] at hp
  | cons yc rest =>
    rw [hy] at hp
    simp only [runGo, List.mem_cons] at hp
    rcases hp with rfl | hp
    · rw [yearStep_zero cfg events yc _]
      exact ⟨roundHalfUp_nonneg _ h1.1, roundHalfUp_nonneg _ h1.2.1,
        roundHalfUp_nonneg _ h1.2.2⟩
    · rw [yearStep_zero cfg events yc _] at hp
      exact (runGo_invariant cfg events hgb hgr hgi rest 1 _ one_ne_zero
        h1.1 h1.2.1 h1.2.2 p hp).1

/-- Witness for C2: the invariant at the first row of the sample run. -/
theorem run_plan_balances_nonneg_witness :
    0 ≤ ((run_plan sampleCfg []).get ⟨0, by decide⟩).Brokerage_Balance ∧
    0 ≤ ((run_plan sampleCfg []).get ⟨0, by decide⟩).Roth_Balance ∧
    0 ≤ ((run_plan sampleCfg []).get ⟨0, by decide⟩).IRA_Balance :=
  run_plan_balances_nonneg sampleCfg []
    (by norm_num [sampleCfg]) (by norm_num [sampleCfg])
    (by norm_num [sampleCfg]) (by norm_num [sampleCfg])
    (by norm_num [sampleCfg]) (by norm_num [sampleCfg])
    _ (List.get_mem _ _ _)

/-- Counterexample for C2 as stated: with an empty brokerage bucket and a
year-1 brokerage draw of 1000, the first emitted row carries a negative
brokerage balance of −1000. -/
theorem balances_nonneg_counterexample :
    ((run_plan overdrawCfg []).get ⟨0, by decide⟩).Brokerage_Balance
      = -1000 ∧
    ((run_plan overdrawCfg []).get ⟨0, by decide⟩).Brokerage_Balance < 0 := by
  have h : ((run_plan overdrawCfg []).get ⟨0, by decide⟩).Brokerage_Balance
      = -1000 := by
    show roundHalfUp ((overdrawCfg.balances_brokerage
      - overdrawCfg.year1_brokerage_draw)
      * (1 + overdrawCfg.brokerage_growth)) = -1000
    have harg : ((overdrawCfg.balances_brokerage
        - overdrawCfg.year1_brokerage_draw)
        * (1 + overdrawCfg.brokerage_growth) : ℚ) = ((-1000 : ℤ) : ℚ) := by
      norm_num [overdrawCfg, sampleCfg]
    rw [harg, roundHalfUp_intCast]
  exact ⟨h, by rw [h]; decide⟩

/-! ## C7: conversion headroom -/

/-- Shape of every year's conversion, with no hypotheses: the applied
conversion is the raw search result clamped to `max 0` of the post-draw
IRA balance, and it is debited from the IRA and credited to the Roth
bucket one-for-one. -/
lemma runGo_conv_shape (cfg : Config) (events : List Event) :
    ∀ (ycs : List YearCtx) (idx : ℕ) (s : St),
      ∀ p ∈ runGo cfg events ycs idx s,
        p.2.roth_conv = min p.2.conv_raw (max 0 p.2.i1) ∧
        p.2.roth_conv ≤ max 0 p.2.i1 ∧
        p.2.i1_after = p.2.i1 - p.2.roth_conv ∧
        p.2.r1_after = p.2.r1 + p.2.roth_conv := by
  intro ycs
  induction ycs with
  | nil =>
    intro idx s p hp
    simp [runGo] at hp
  | cons yc rest ih =>
    intro idx s p hp
    simp only [runGo, List.mem_cons] at hp
    rcases hp with rfl | hp
    · by_cases hidx : idx = 0
      · subst hidx
        rw [yearStep_zero cfg events yc _]
        refine ⟨(min_eq_left (le_max_left _ _)).symm, le_max_left _ _,
          rfl, rfl⟩
      · rw [yearStep_of_ne cfg events yc s hidx]
        exact ⟨rfl, min_le_right _ _, rfl, rfl⟩
    · exact ih (idx + 1) _ p hp

/-- C7: in every simulated year the applied Roth conversion is clamped to
`min(conversion, max(0, post-draw IRA balance))` and is transferred from
the IRA to the Roth bucket by exactly the same amount; under non-negative
opening balances, year-1 draws within their buckets and growth rates at
least −100%, it also never exceeds the IRA balance remaining after the
RMD debit and the ordinary draws. -/
theorem roth_conversion_headroom (cfg : Config) (events : List Event) :
    (∀ p ∈ runAuxFull cfg events,
       p.2.roth_conv = min p.2.conv_raw (max 0 p.2.i1) ∧
       p.2.roth_conv ≤ max 0 p.2.i1 ∧
       p.2.i1_after = p.2.i1 - p.2.roth_conv ∧
       p.2.r1_after = p.2.r1 + p.2.roth_conv) ∧
    (cfg.year1_brokerage_draw ≤ cfg.balances_brokerage →
     cfg.year1_roth_draw ≤ cfg.balances_roth →
     cfg.year1_ira_draw ≤ cfg.balances_ira →
     -1 ≤ cfg.brokerage_growth → -1 ≤ cfg.roth_growth →
     -1 ≤ cfg.ira_growth →
     ∀ p ∈ runAuxFull cfg events,
       0 ≤ p.2.roth_conv ∧ p.2.roth_conv ≤ p.2.i1) := by
  constructor
  · intro p hp
    unfold runAuxFull at hp
    exact runGo_conv_shape cfg events _ _ _ p hp
  · intro hdb hdr hdi hgb hgr hgi p hp
    unfold runAuxFull at hp
    have h1 := mkAux1_invariant cfg hdb hdr hdi hgb hgr hgi
    cases hy : planYears cfg with
    | nil =>
      rw [hy] at hp
      simp [runGo] at hp
    | cons yc rest =>
      rw [hy] at hp
      simp only [runGo, List.mem_cons] at hp
      rcases hp with rfl | hp
      · rw [yearStep_zero cfg events yc _]
        constructor
        · exact le_rfl
        · show (0 : ℚ) ≤ cfg.balances_ira - cfg.year1_ira_draw
          linarith
      · rw [yearStep_zero cfg events yc _] at hp
        have h := runGo_invariant cfg events hgb hgr hgi rest 1 _ one_ne_zero
          h1.1 h1.2.1 h1.2.2 p hp
        exact ⟨h.2.2.1, h.2.2.2.1⟩

/-- Witness for C7: both parts at the first element of the sample run. -/
theorem roth_conversion_headroom_witness :
    (((runAuxFull sampleCfg []).get ⟨0, by decide⟩).2.roth_conv
       = min ((runAuxFull sampleCfg []).get ⟨0, by decide⟩).2.conv_raw
           (max 0 ((runAuxFull sampleCfg []).get ⟨0, by decide⟩).2.i1)) ∧
    (0 ≤ ((runAuxFull sampleCfg []).get ⟨0, by decide⟩).2.roth_conv ∧
     ((runAuxFull sampleCfg []).get ⟨0, by decide⟩).2.roth_conv
       ≤ ((runAuxFull sampleCfg []).get ⟨0, by decide⟩).2.i1) :=
  ⟨((roth_conversion_headroom sampleCfg []).1 _ (List.get_mem _ _ _)).1,
   (roth_conversion_headroom sampleCfg []).2
     (by norm_num [sampleCfg]) (by norm_num [sampleCfg])
     (by norm_num [sampleCfg]) (by norm_num [sampleCfg])
     (by norm_num [sampleCfg]) (by norm_num [sampleCfg])
     _ (List.get_mem _ _ _)⟩

/-! ## C3: shortfall consistency -/

/-- On non-first years the emitted Shortfall is the rounded raw
shortfall, which is the clamped gap between the gross spend and the cash
provided. -/
lemma runGo_shortfall (cfg : Config) (events : List Event) :
    ∀ (ycs : List YearCtx) (idx : ℕ) (s : St), idx ≠ 0 →
      ∀ p ∈ runGo cfg events ycs idx s,
        p.1.Shortfall = roundHalfUp p.2.shortfall ∧
        p.2.shortfall = max 0 (p.2.total_spend - p.2.provided) := by
  intro ycs
  induction ycs with
  | nil =>
    intro idx s _ p hp
    simp [runGo] at hp
  | cons yc rest ih =>
    intro idx s hidx p hp
    simp only [runGo, List.mem_cons] at hp
    rcases hp with rfl | hp
    · rw [yearStep_of_ne cfg events yc s hidx]
      exact ⟨rfl, rfl⟩
    · exact ih (idx + 1) _ (Nat.succ_ne_zero idx) p hp

/-- C3 (amended): for every row after the first, the emitted Shortfall
is non-negative, and it is strictly positive exactly when the cash
provided (benefits + RMD + draws) falls short of the gross spend by at
least half a currency unit — the rounding threshold of the output layer.
(The first row always reports a zero Shortfall by the year-1 override.) -/
theorem shortfall_consistency (cfg : Config) (events : List Event) :
    ∀ p ∈ (runAuxFull cfg events).drop 1,
      0 ≤ p.1.Shortfall ∧
      (0 < p.1.Shortfall ↔ p.2.provided + 1/2 ≤ p.2.total_spend) := by
  intro p hp
  unfold runAuxFull at hp
  cases hy : planYears cfg with
  | nil =>
    rw [hy] at hp
    simp [runGo] at hp
  | cons yc rest =>
    rw [hy] at hp
    simp only [runGo, List.drop_succ_cons, List.drop_zero] at hp
    obtain ⟨hS, hsf⟩ := runGo_shortfall cfg events rest 1 _ one_ne_zero p hp
    constructor
    · rw [hS, hsf]
      exact roundHalfUp_nonneg _ (le_max_left _ _)
    · rw [hS, hsf, roundHalfUp_pos_iff, le_max_iff]
      constructor
      · rintro (h | h)
        · norm_num at h
        · linarith
      · intro h
        right
        linarith

/-- Witness for C3: the property at the second row of the sample run. -/
theorem shortfall_consistency_witness :
    0 ≤ (((runAuxFull sampleCfg []).drop 1).get ⟨0, by decide⟩).1.Shortfall ∧
    (0 < (((runAuxFull sampleCfg []).drop 1).get ⟨0, by decide⟩).1.Shortfall ↔
      (((runAuxFull sampleCfg []).drop 1).get ⟨0, by decide⟩).2.provided + 1/2
        ≤ (((runAuxFull sampleCfg []).drop 1).get
            ⟨0, by decide⟩).2.total_spend) :=
  shortfall_consistency sampleCfg [] _ (List.get_mem _ _ _)

/-- Counterexample for C3 as stated: in the first row of `shortCfg`'s
run the cash provided (0) is far below the gross spend (50,000), yet the
emitted Shortfall is 0, not positive. -/
theorem shortfall_counterexample :
    ((run_plan shortCfg []).get ⟨0, by decide⟩).Shortfall = 0 ∧
    ((run_plan shortCfg []).get ⟨0, by decide⟩).Social_Security
      + ((run_plan shortCfg []).get ⟨0, by decide⟩).RMD
      + ((run_plan shortCfg []).get ⟨0, by decide⟩).IRA_Draw
      + ((run_plan shortCfg []).get ⟨0, by decide⟩).Brokerage_Draw
      + ((run_plan shortCfg []).get ⟨0, by decide⟩).Roth_Draw
      < ((run_plan shortCfg []).get ⟨0, by decide⟩).Total_Spend := by
  have hz : roundHalfUp (0 : ℚ) = 0 := by
    simpa using roundHalfUp_intCast 0
  have h5 : roundHalfUp (50000 : ℚ) = 50000 := by
    rw [show (50000 : ℚ) = ((50000 : ℤ) : ℚ) by norm_num, roundHalfUp_intCast]
  constructor
  · show roundHalfUp (0 : ℚ) = 0
    exact hz
  · show roundHalfUp (0 : ℚ) + roundHalfUp (0 : ℚ) + roundHalfUp (0 : ℚ)
      + roundHalfUp (0 : ℚ) + roundHalfUp (0 : ℚ) < roundHalfUp (50000 : ℚ)
    rw [hz, h5]
    decide

/-! ## C9: total assets conservation -/

/-- Rounding a three-part sum and summing three rounded parts differ by
at most two whole units. -/
lemma round3_bound (x y z : ℚ) :
    |roundHalfUp (x + y + z)
      - (roundHalfUp x + roundHalfUp y + roundHalfUp z)| ≤ 2 := by
  rw [abs_le]
  constructor
  · have h : (-2 : ℚ) ≤ (roundHalfUp (x + y + z) : ℚ)
        - ((roundHalfUp x : ℚ) + (roundHalfUp y : ℚ) + (roundHalfUp z : ℚ)) := by
      have h1 := roundHalfUp_le x
      have h2 := roundHalfUp_le y
      have h3 := roundHalfUp_le z
      have h4 := roundHalfUp_ge (x + y + z)
      linarith
    exact_mod_cast h
  · have h : (roundHalfUp (x + y + z) : ℚ)
        - ((roundHalfUp x : ℚ) + (roundHalfUp y : ℚ) + (roundHalfUp z : ℚ))
        ≤ 2 := by
      have h1 := roundHalfUp_ge x
      have h2 := roundHalfUp_ge y
      have h3 := roundHalfUp_ge z
      have h4 := roundHalfUp_le (x + y + z)
      linarith
    exact_mod_cast h

/-- Every element the loop emits is a row built by `rowOf` from its own
year values. -/
lemma runGo_row_shape (cfg : Config) (events : List Event) :
    ∀ (ycs : List YearCtx) (idx : ℕ) (s : St),
      ∀ p ∈ runGo cfg events ycs idx s, ∃ yc a, p = (rowOf yc a, a) := by
  intro ycs
  induction ycs with
  | nil =>
    intro idx s p hp
    simp [runGo] at hp
  | cons yc rest ih =>
    intro idx s p hp
    simp only [runGo, List.mem_cons] at hp
    rcases hp with rfl | hp
    · exact ⟨yc, if idx = 0 then mkAux1 cfg else mkAuxN cfg events idx yc s,
        rfl⟩
    · exact ih (idx + 1) _ p hp

/-- C9: in every row `run_plan` emits, the Total_Assets field equals the
sum of the three ending balances within the rounding tolerance of two
currency units. -/
theorem total_assets_conservation (cfg : Config) (events : List Event) :
    ∀ row ∈ run_plan cfg events,
      |row.Total_Assets - (row.Brokerage_Balance + row.Roth_Balance
        + row.IRA_Balance)| ≤ 2 := by
  intro row hrow
  unfold run_plan at hrow
  rw [List.mem_map] at hrow
  obtain ⟨p, hp, rfl⟩ := hrow
  unfold runAuxFull at hp
  obtain ⟨yc, a, rfl⟩ := runGo_row_shape cfg events _ _ _ p hp
  show |roundHalfUp (a.end_b + a.end_r + a.end_i)
    - (roundHalfUp a.end_b + roundHalfUp a.end_r + roundHalfUp a.end_i)| ≤ 2
  exact round3_bound _ _ _

/-- Witness for C9: the bound at the first row of the sample run. -/
theorem total_assets_conservation_witness :
    |((run_plan sampleCfg []).get ⟨0, by decide⟩).Total_Assets
      - (((run_plan sampleCfg []).get ⟨0, by decide⟩).Brokerage_Balance
        + ((run_plan sampleCfg []).get ⟨0, by decide⟩).Roth_Balance
        + ((run_plan sampleCfg []).get ⟨0, by decide⟩).IRA_Balance)| ≤ 2 :=
  total_assets_conservation sampleCfg [] _ (List.get_mem _ _ _)

/-! ## C10: filing status derivation -/

/-- C10: pairing each timeline context with its emitted row, the Filing
field is "MFJ" exactly when both persons are alive that year and
"Single" otherwise, for every configuration — the `filing_status` field
of the configuration is never consulted. -/
theorem filing_from_alive (cfg : Config) (events : List Event) :
    ∀ q ∈ (planYears cfg).zip (run_plan cfg events),
      q.2.Filing = if q.1.person1_alive && q.1.person2_alive then "MFJ"
        else "Single" := by
  suffices h : ∀ (ycs : List YearCtx) (idx : ℕ) (s : St),
      ∀ q ∈ ycs.zip ((runGo cfg events ycs idx s).map (fun p => p.1)),
        q.2.Filing = if q.1.person1_alive && q.1.person2_alive then "MFJ"
          else "Single" by
    intro q hq
    exact h (planYears cfg) 0 _ q hq
  intro ycs
  induction ycs with
  | nil =>
    intro idx s q hq
    simp at hq
  | cons yc rest ih =>
    intro idx s q hq
    simp only [runGo, List.map_cons, List.zip_cons_cons, List.mem_cons] at hq
    rcases hq with rfl | hq
    · rfl
    · exact ih (idx + 1) _ q hq

/-- The year-context/row pairing of the sample run, for the C10
witness. -/
def sampleZip : List (YearCtx × Row) :=
  (planYears sampleCfg).zip (run_plan sampleCfg [])

/-- Witness for C10: the first timeline year of the sample run. -/
theorem filing_from_alive_witness :
    (sampleZip.get ⟨0, by decide⟩).2.Filing
      = if (sampleZip.get ⟨0, by decide⟩).1.person1_alive
          && (sampleZip.get ⟨0, by decide⟩).1.person2_alive then "MFJ"
        else "Single" :=
  filing_from_alive sampleCfg [] _ (List.get_mem _ _ _)

end RetirePlan
